import Mathlib

set_option maxHeartbeats 1000000

/-!
Shallow embedding of the WhatsApp job bot (src/main.py): the eligibility
classifier, the seen-store, the report builder, and the webhook chunking
logic, together with theorems settling the frozen claims about them.
-/

/-- Python substring containment: `isSub needle hay` is true iff `needle`
occurs contiguously inside `hay` (the semantics of the Python expression
`needle in hay` on strings, at the character-list level). -/
def isSub (needle : List Char) : List Char → Bool
  | [] => needle.isEmpty
  | c :: cs => needle.isPrefixOf (c :: cs) || isSub needle cs

/-- `pyIn needle hay` embeds the Python expression `needle in hay` for strings. -/
def pyIn (needle hay : String) : Bool := isSub needle.data hay.data

/-- Embeds Python `str.lower()` (character-wise ASCII lowercasing). -/
def lowerS (s : String) : String := String.mk (s.data.map Char.toLower)

/- Keyword lists of `eligible_for_you` (src/main.py lines 165-204), in source order. -/

/-- Rule-1 immediate-reject qualifiers (line 165). -/
def rejectKws : List String :=
  ["10th", "12th", "iti", "diploma", "polytechnic", "12th pass", "matric"]

/-- Rule-2 any-graduate phrases (line 170). -/
def anyGradKws : List String :=
  ["any graduate", "any degree", "graduate in any", "bachelor degree in any",
   "degree in any", "graduation in any"]

/-- Rule-3 generic graduate/bachelor keywords (line 175). -/
def gradKws : List String :=
  ["graduate", "bachelor degree", "bachelor\x27s degree", "degree required", "bachelor in"]

/-- Rule-4a ECE keywords inside the B.Tech branch (line 183). -/
def eceKws : List String :=
  ["ece", "electronics", "electronics & communication", "electronics and communication"]

/-- Rule-4b any-branch keywords (line 187). -/
def anyBranchKws : List String := ["any branch", "all engineering", "all branches"]

/-- Rule-4c other-branch keywords (line 191). -/
def otherBranchKws : List String := ["mechanical", "civil", "chemical", "electrical"]

/-- Rule-5 bare ECE keywords (line 199). -/
def eceBareKws : List String := ["ece", "electronics", "electronic"]

/-- Rule-6 technical-role keywords (line 204). -/
def techRoleKws : List String :=
  ["engineer", "scientist", "scientific", "technical", "technical assistant"]

/-- Rule-6 degree keywords (line 204). -/
def degWordKws : List String := ["degree", "graduate", "bachelor"]

/-- Embeds `eligible_for_you` (src/main.py lines 154-210): the ordered
first-match-wins rule chain over the lowercased text. `some true` is the
Eligible verdict, `some false` NotEligible, `none` Unknown; the second
component is the reasons list. -/
def eligible_for_you (text : String) : Option Bool × List String :=
  let t := lowerS text
  if rejectKws.any (fun w => pyIn w t) then
    (some false, ["Requires 10th/12th/ITI/Diploma"])
  else if anyGradKws.any (fun kw => pyIn kw t) then
    (some true, ["Open to Any Graduate / Any Degree"])
  else if gradKws.any (fun kw => pyIn kw t) then
    (some true, ["Requires Graduate / Bachelor\x27s degree"])
  else if pyIn "b.tech" t || pyIn "btech" t || pyIn "b.e" t then
    if eceKws.any (fun k => pyIn k t) then
      (some true, ["Specifically mentions ECE / Electronics"])
    else if anyBranchKws.any (fun k => pyIn k t) then
      (some false, ["B.Tech any branch ‚Äî excluded by preference"])
    else if otherBranchKws.any (fun k => pyIn k t) then
      (some false, ["Mentions other branch (not ECE)"])
    else
      (some false, ["B.Tech mentioned without ECE ‚Äî excluded by preference"])
  else if eceBareKws.any (fun k => pyIn k t) then
    (some true, ["Mentions ECE / Electronics"])
  else if (techRoleKws.any (fun k => pyIn k t)) && (degWordKws.any (fun k => pyIn k t)) then
    (some true, ["Technical post requiring degree/graduate"])
  else
    (none, ["Could not detect confidently"])








/-- One row of the `seen_jobs` SQLite table (src/main.py lines 71-78); the
autoincrement id column carries no information and is omitted. The UNIQUE
constraint on `link` is reflected in `mark_seen` below. -/
structure SeenRecord where
  link : String
  title : String
  date_added : String
deriving DecidableEq, Repr

/-- The seen-store: the rows of `seen_jobs` in insertion order. -/
abbrev Store := List SeenRecord

/-- Embeds `is_seen` (src/main.py lines 93-99): a row with this link exists. -/
def is_seen (db : Store) (link : String) : Bool := db.any (fun r => r.link == link)

/-- Embeds `mark_seen` (src/main.py lines 82-91): INSERT of a new row; the
UNIQUE constraint on `link` makes the insert of an existing link raise
IntegrityError, which the source swallows, so the store is unchanged.
`date_added` stands for the `datetime.utcnow().isoformat()` stamp, supplied
by the environment. -/
def mark_seen (db : Store) (link title date_added : String) : Store :=
  if db.any (fun r => r.link == link) then db
  else db ++ [{ link := link, title := title, date_added := date_added }]

/-- A candidate posting (title plus link), as produced by aggregation. -/
structure Posting where
  title : String
  link : String
deriving DecidableEq, Repr

/-- One classified entry of a report bucket (src/main.py line 245). -/
structure Entry where
  title : String
  link : String
  reasons : List String
deriving DecidableEq, Repr

/-- The mutable state of the classification loop of `build_reports`
(src/main.py lines 237-260): the four buckets plus the seen-store. -/
structure BuildState where
  applicable : List Entry
  not_applicable : List Entry
  unknown : List Entry
  new_applicable : List Entry
  db : Store
deriving DecidableEq, Repr

/-- One iteration of the classification loop of `build_reports`
(src/main.py lines 242-260): classify `title ++ " " ++ link`, route the
entry into its bucket, and consult/update the seen-store. `tm` stands for
the insertion timestamp. -/
def classifyStep (tm : String) (st : BuildState) (j : Posting) : BuildState :=
  let combined := j.title ++ " " ++ j.link
  let res := eligible_for_you combined
  let entry : Entry := { title := j.title, link := j.link, reasons := res.2 }
  match res.1 with
  | some true =>
    if is_seen st.db j.link then
      { st with applicable := st.applicable ++ [entry] }
    else
      { st with applicable := st.applicable ++ [entry],
                new_applicable := st.new_applicable ++ [entry],
                db := mark_seen st.db j.link j.title tm }
  | some false =>
    if is_seen st.db j.link then
      { st with not_applicable := st.not_applicable ++ [entry] }
    else
      { st with not_applicable := st.not_applicable ++ [entry],
                db := mark_seen st.db j.link j.title tm }
  | none =>
    if is_seen st.db j.link then
      { st with unknown := st.unknown ++ [entry] }
    else
      { st with unknown := st.unknown ++ [entry],
                db := mark_seen st.db j.link j.title tm }

/-- Display cap per digest section (src/main.py line 34). -/
def MAX_SHOW : Nat := 8

/-- The three lines rendered for one entry of the applicable, not-applicable
and unknown sections (src/main.py lines 267-269): title, link, and the
reasons joined by a semicolon separator. -/
def entryBlock (e : Entry) : List String :=
  ["- " ++ e.title, "  " ++ e.link, "  Note: " ++ String.intercalate "; " e.reasons]

/-- The two lines rendered for one entry of the new-applicable section
(src/main.py lines 297-298): title and link only. -/
def entryBlockNoNote (e : Entry) : List String :=
  ["- " ++ e.title, "  " ++ e.link]

/-- The lines of one digest section (src/main.py lines 265-271 and the
three analogous loops): `None` for an empty bucket, else the blocks of the
first `MAX_SHOW` entries. -/
def sectionLines (blk : Entry → List String) (es : List Entry) : List String :=
  if es.isEmpty then ["None"] else ((es.take MAX_SHOW).map blk).flatten

/-- The full digest line list of `build_reports` (src/main.py lines 262-303);
`now` stands for the formatted current date. -/
def reportLines (st : BuildState) (now : String) : List String :=
  ["üìÖ Daily Job Report ‚Äî " ++ now, ""]
  ++ ["‚úÖ Applicable (B.Tech ECE OR Any Graduate):"]
  ++ sectionLines entryBlock st.applicable
  ++ ["", "‚ùå Not Applicable:"]
  ++ sectionLines entryBlock st.not_applicable
  ++ ["", "‚ö†Ô∏è Unable to detect:"]
  ++ sectionLines entryBlock st.unknown
  ++ ["", "New applicable jobs (not previously seen):"]
  ++ sectionLines entryBlockNoNote st.new_applicable
  ++ ["", "Reply \x27jobs\x27 anytime to get on-demand summary."]

/-- The stats dictionary of `build_reports` (src/main.py line 305). -/
structure Stats where
  total : Nat
  applicable : Nat
  not_applicable : Nat
  unknown : Nat
  new_applicable : Nat
deriving DecidableEq, Repr

/-- The result of `build_reports`: the digest text (and its line list), the
stats, and the final loop state including the updated seen-store. -/
structure Report where
  st : BuildState
  lines : List String
  text : String
  stats : Stats
deriving Repr

/-- Embeds `build_reports` (src/main.py lines 236-306) over an explicit
seen-store `db`; `now` is the formatted date and `tm` the insertion
timestamp used for `mark_seen` calls of this cycle. -/
def build_reports (jobs : List Posting) (db : Store) (now tm : String) : Report :=
  let init : BuildState := {
    applicable := []
    not_applicable := []
    unknown := []
    new_applicable := []
    db := db }
  let st := jobs.foldl (classifyStep tm) init
  let lines := reportLines st now
  let stats : Stats := {
    total := jobs.length
    applicable := st.applicable.length
    not_applicable := st.not_applicable.length
    unknown := st.unknown.length
    new_applicable := st.new_applicable.length }
  { st := st, lines := lines, text := String.intercalate "\n" lines, stats := stats }

/-- The characters Python `str.splitlines` treats as line boundaries. -/
def isLineBreak (c : Char) : Bool :=
  c = '\n' || c = '\r' || c = '\x0b' || c = '\x0c' ||
  c = '\x1c' || c = '\x1d' || c = '\x1e' || c = '\x85' ||
  c = '\u2028' || c = '\u2029'

/-- Embeds Python `report.splitlines(True)` (src/main.py line 353) at the
character-list level: split after every line boundary, keeping the line
ends; a `"\r\n"` pair counts as a single boundary. `acc` holds the current
line, reversed. -/
def splitlinesKeep : List Char → List Char → List (List Char)
  | acc, [] => if acc.isEmpty then [] else [acc.reverse]
  | acc, c :: cs =>
    if c = '\r' then
      match cs with
      | [] => [acc.reverse ++ [c]]
      | d :: rest =>
        if d = '\n' then (acc.reverse ++ [c, d]) :: splitlinesKeep [] rest
        else (acc.reverse ++ [c]) :: splitlinesKeep [] (d :: rest)
    else if isLineBreak c then (acc.reverse ++ [c]) :: splitlinesKeep [] cs
    else splitlinesKeep (c :: acc) cs

/-- Twilio size cap used by the webhook chunking (src/main.py line 345). -/
def MAX_CHUNK : Nat := 1500

/-- Embeds the chunk-accumulation loop of `bot_webhook` (src/main.py lines
350-362): greedily pack whole lines into parts of at most `MAX_CHUNK`
characters (a single overlong line still becomes its own part). `cur` is
the current part as a list of lines and `curLen` its running length. -/
def chunkLines (cur : List (List Char)) (curLen : Nat) : List (List Char) → List (List Char)
  | [] => if cur.isEmpty then [] else [cur.flatten]
  | line :: rest =>
    if curLen + line.length > MAX_CHUNK && !cur.isEmpty then
      cur.flatten :: chunkLines [line] line.length rest
    else
      chunkLines (cur ++ [line]) (curLen + line.length) rest

/-- The ordered chunk list the webhook builds for a long report
(src/main.py lines 349-362). -/
def webhookParts (report : List Char) : List (List Char) :=
  chunkLines [] 0 (splitlinesKeep [] report)

/-- The outbound effect of the webhook query path once the report text is
built (src/main.py lines 344-372): the immediate TwiML reply plus the list
of (body, recipient) messages pushed via the Twilio REST client to the
original sender. A short report is replied whole; a long one is split and
the parts after the first are pushed individually. -/
structure RouteOut where
  reply : List Char
  pushed : List (List Char × List Char)
deriving DecidableEq, Repr

/-- Embeds the size-protection branch of `bot_webhook` (src/main.py lines
344-372); `sender` is the `From` field of the request and `cfg` whether the
Twilio REST client is configured (line 366): the extra chunks are pushed
only when it is. -/
def bot_webhook_route (cfg : Bool) (report sender : List Char) : RouteOut :=
  if report.length ≤ MAX_CHUNK then { reply := report, pushed := [] }
  else
    let parts := webhookParts report
    { reply := parts.headD []
      pushed := if cfg then parts.tail.map (fun p => (p, sender)) else [] }


/-- The ASCII whitespace characters of Python `str.isspace` relevant here. -/
def wsChars : List Char := [' ', '\t', '\n', '\r', '\x0b', '\x0c']

/-- An input is whitespace-only when every character is whitespace
(vacuously true for the empty string). -/
def isWsOnly (s : String) : Bool := s.data.all (fun c => decide (c ∈ wsChars))

/-- Loop invariant of `build_reports` relative to the store `db0` at the
start of the cycle: new-applicable entries lie in applicable, their links
were unseen at cycle start, and the store only grows. -/
def ReportInv (db0 : Store) (st : BuildState) : Prop :=
  (∀ e ∈ st.new_applicable, e ∈ st.applicable) ∧
  (∀ e ∈ st.new_applicable, is_seen db0 e.link = false) ∧
  (∀ l, is_seen db0 l = true → is_seen st.db l = true)

/-! ### Helper lemmas -/

/-- Every character of a matched substring occurs in the haystack. -/
theorem isSub_subset {n h : List Char} (hs : isSub n h = true) : ∀ c ∈ n, c ∈ h := by
  induction h with
  | nil =>
    intro c hc
    simp only [isSub, List.isEmpty_iff] at hs
    subst hs
    simp at hc
  | cons a tl ih =>
    intro c hc
    simp only [isSub, Bool.or_eq_true] at hs
    rcases hs with hp | hr
    · exact (List.isPrefixOf_iff_prefix.mp hp).sublist.subset hc
    · exact List.mem_cons_of_mem _ (ih hr c hc)

/-- Marking a link makes `is_seen` true for it. -/
theorem is_seen_mark_seen_self (db : Store) (link title tm : String) :
    is_seen (mark_seen db link title tm) link = true := by
  simp only [is_seen, mark_seen]
  split
  · assumption
  · simp [List.any_append]

/-- Marking an already-seen link leaves the store unchanged (the UNIQUE
violation is swallowed). -/
theorem mark_seen_of_seen {db : Store} {link : String} (h : is_seen db link = true)
    (title tm : String) : mark_seen db link title tm = db := by
  simp only [is_seen] at h
  simp only [mark_seen, h, if_true]

/-- `mark_seen` never makes a seen link unseen. -/
theorem is_seen_mark_seen_mono {db : Store} {l : String} (h : is_seen db l = true)
    (l2 title tm : String) : is_seen (mark_seen db l2 title tm) l = true := by
  simp only [is_seen, mark_seen] at h ⊢
  split
  · exact h
  · simp [List.any_append, h]

/-! ### C1 -/

/-- C1: any input whose lowercased text contains one of the six
qualification-floor keywords as a substring is classified NotEligible with
reason `Requires 10th/12th/ITI/Diploma`, whatever else the text contains. -/
theorem C1_floor_keyword_dominates (text : String)
    (h : (["10th", "12th", "iti", "diploma", "polytechnic", "matric"] : List String).any
      (fun w => pyIn w (lowerS text)) = true) :
    eligible_for_you text = (some false, ["Requires 10th/12th/ITI/Diploma"]) := by
  have hr : rejectKws.any (fun w => pyIn w (lowerS text)) = true := by
    simp only [rejectKws, List.any_cons, List.any_nil, Bool.or_eq_true] at h ⊢
    tauto
  simp [eligible_for_you, hr]

/-- Witness for C1 at the concrete posting text `10th Pass Technician Vacancy`. -/
theorem C1_floor_keyword_dominates_witness :
    ((["10th", "12th", "iti", "diploma", "polytechnic", "matric"] : List String).any
      (fun w => pyIn w (lowerS "10th Pass Technician Vacancy")) = true) ∧
    eligible_for_you "10th Pass Technician Vacancy" =
      (some false, ["Requires 10th/12th/ITI/Diploma"]) :=
  ⟨by decide, C1_floor_keyword_dominates "10th Pass Technician Vacancy" (by decide)⟩

/-! ### C2 -/

/-- C2 as frozen is false: `10th pass B.Tech ECE vacancy` contains `b.tech`
and the ECE keyword `ece`, yet the verdict is NotEligible because the
qualification-floor rule fires first. -/
theorem C2_counterexample :
    pyIn "b.tech" (lowerS "10th pass B.Tech ECE vacancy") = true ∧
    eceKws.any (fun k => pyIn k (lowerS "10th pass B.Tech ECE vacancy")) = true ∧
    (eligible_for_you "10th pass B.Tech ECE vacancy").1 = some false := by decide

/-- C2 amended: when no qualification-floor keyword occurs, text containing
`b.tech` and an ECE keyword is Eligible; when additionally no any-graduate
phrase and no generic graduate/bachelor keyword occurs, text containing
`b.tech` and `mechanical` with no ECE keyword is NotEligible. -/
theorem C2_btech_branch (text : String)
    (hfloor : rejectKws.any (fun w => pyIn w (lowerS text)) = false)
    (hbt : pyIn "b.tech" (lowerS text) = true) :
    (eceKws.any (fun k => pyIn k (lowerS text)) = true →
      (eligible_for_you text).1 = some true) ∧
    (anyGradKws.any (fun kw => pyIn kw (lowerS text)) = false →
     gradKws.any (fun kw => pyIn kw (lowerS text)) = false →
     pyIn "mechanical" (lowerS text) = true →
     eceKws.any (fun k => pyIn k (lowerS text)) = false →
      (eligible_for_you text).1 = some false) := by
  constructor
  · intro hece
    by_cases h2 : anyGradKws.any (fun kw => pyIn kw (lowerS text)) = true
    · simp [eligible_for_you, hfloor, h2]
    · rw [Bool.not_eq_true] at h2
      by_cases h3 : gradKws.any (fun kw => pyIn kw (lowerS text)) = true
      · simp [eligible_for_you, hfloor, h2, h3]
      · rw [Bool.not_eq_true] at h3
        simp [eligible_for_you, hfloor, h2, h3, hbt, hece]
  · intro h2 h3 hmech hece
    have hob : otherBranchKws.any (fun k => pyIn k (lowerS text)) = true := by
      simp only [otherBranchKws, List.any_cons, List.any_nil, Bool.or_eq_true]
      tauto
    by_cases h4b : anyBranchKws.any (fun k => pyIn k (lowerS text)) = true
    · simp [eligible_for_you, hfloor, h2, h3, hbt, hece, h4b]
    · rw [Bool.not_eq_true] at h4b
      simp [eligible_for_you, hfloor, h2, h3, hbt, hece, h4b, hob]

/-- Witness for C2 amended at `B.Tech ECE walk-in`. -/
theorem C2_btech_branch_witness :
    rejectKws.any (fun w => pyIn w (lowerS "B.Tech ECE walk-in")) = false ∧
    pyIn "b.tech" (lowerS "B.Tech ECE walk-in") = true ∧
    eceKws.any (fun k => pyIn k (lowerS "B.Tech ECE walk-in")) = true ∧
    (eligible_for_you "B.Tech ECE walk-in").1 = some true :=
  ⟨by decide, by decide, by decide,
    (C2_btech_branch "B.Tech ECE walk-in" (by decide) (by decide)).1 (by decide)⟩

/-! ### C3 -/

/-- C3 as frozen is false: on `B.Tech ECE Graduate Apply Now` the verdict is
Eligible but the returned reason is the rule-3 one, which mentions neither
ECE nor Electronics. -/
theorem C3_counterexample :
    eligible_for_you "B.Tech ECE Graduate Apply Now" =
      (some true, ["Requires Graduate / Bachelor\x27s degree"]) ∧
    pyIn "ece" (lowerS "Requires Graduate / Bachelor\x27s degree") = false ∧
    pyIn "electronic" (lowerS "Requires Graduate / Bachelor\x27s degree") = false := by
  decide

/-- C3 amended: on `B.Tech ECE Graduate Apply Now` the verdict is Eligible,
with the single rule-3 reason `Requires Graduate / Bachelor's degree`
(the generic-graduate rule fires before the B.Tech nested rule because
`graduate` occurs). -/
theorem C3_btech_ece_graduate :
    eligible_for_you "B.Tech ECE Graduate Apply Now" =
      (some true, ["Requires Graduate / Bachelor\x27s degree"]) := by decide

/-! ### C4 -/

/-- C4: marking a link seen twice is idempotent: the link is seen after the
first call, and the second call (whatever title and timestamp it carries)
returns without error and leaves the store, hence the stored title and
first-seen timestamp, unchanged. -/
theorem C4_mark_seen_idempotent (db : Store) (link t1 t2 tm1 tm2 : String) :
    is_seen (mark_seen db link t1 tm1) link = true ∧
    mark_seen (mark_seen db link t1 tm1) link t2 tm2 = mark_seen db link t1 tm1 :=
  ⟨is_seen_mark_seen_self db link t1 tm1,
   mark_seen_of_seen (is_seen_mark_seen_self db link t1 tm1) t2 tm2⟩

/-! ### C10 -/

/-- C10: `Recent Recruitment Drive` contains no ECE/electronics keyword as a
space-separated word, yet the classifier returns Eligible with reason
`Mentions ECE / Electronics`, because `ece` occurs as a raw substring of
`recent`. -/
theorem C10_substring_false_positive :
    eligible_for_you "Recent Recruitment Drive" =
      (some true, ["Mentions ECE / Electronics"]) ∧
    ((lowerS "Recent Recruitment Drive").data.splitOn ' ').all
      (fun w => !(["ece".data, "electronics".data, "electronic".data].contains w)) = true ∧
    isSub "ece".data "recent".data = true := by decide

/-! ### C9 -/

/-- A keyword with a non-whitespace character never matches a
whitespace-only haystack. -/
theorem pyIn_ws_false (k t : String)
    (hws : ∀ c ∈ t.data, c ∈ wsChars)
    (hk : k.data.any (fun c => !(decide (c ∈ wsChars))) = true) :
    pyIn k t = false := by
  rcases List.any_eq_true.mp hk with ⟨c, hc, hcw⟩
  simp only [Bool.not_eq_eq_eq_not, Bool.not_true, decide_eq_false_iff_not] at hcw
  cases hsub : pyIn k t with
  | false => rfl
  | true => exact absurd (hws c (isSub_subset hsub c hc)) hcw

/-- No keyword of a list of keywords each containing a non-whitespace
character matches a whitespace-only haystack. -/
theorem any_pyIn_ws_false (kws : List String) (t : String)
    (hws : ∀ c ∈ t.data, c ∈ wsChars)
    (hk : kws.all (fun k => k.data.any (fun c => !(decide (c ∈ wsChars)))) = true) :
    kws.any (fun k => pyIn k t) = false := by
  rw [List.any_eq_false]
  intro k hkmem
  rw [pyIn_ws_false k t hws (List.all_eq_true.mp hk k hkmem)]
  simp

/-- Lowercasing a whitespace-only string keeps every character whitespace. -/
theorem lowerS_ws {text : String} (h : isWsOnly text = true) :
    ∀ c ∈ (lowerS text).data, c ∈ wsChars := by
  intro c hc
  have hd : (lowerS text).data = text.data.map Char.toLower := rfl
  rw [hd] at hc
  rcases List.mem_map.mp hc with ⟨a, ha, rfl⟩
  have haw : a ∈ wsChars := by
    have := List.all_eq_true.mp h a ha
    simpa using this
  have hfix : Char.toLower a = a := by
    have hall : wsChars.all (fun c => Char.toLower c == c) = true := by decide
    have := List.all_eq_true.mp hall a haw
    simpa using this
  rw [hfix]
  exact haw

/-- C9 as frozen is false only in the casing of the quoted reason: on the
empty input the classifier abstains, but the reason string is
`Could not detect confidently`, not `could not detect confidently`. -/
theorem C9_counterexample :
    eligible_for_you "" = (none, ["Could not detect confidently"]) ∧
    (eligible_for_you "").2 ≠ ["could not detect confidently"] := by decide

/-- C9 amended: every classification carries exactly one reason (the first
matching rule's), and on empty or whitespace-only input no rule matches,
so the verdict is Unknown with reason `Could not detect confidently`. -/
theorem C9_reasons_singleton_and_ws_unknown (text : String) :
    (eligible_for_you text).2.length = 1 ∧
    (isWsOnly text = true →
      eligible_for_you text = (none, ["Could not detect confidently"])) := by
  constructor
  · simp only [eligible_for_you]
    split_ifs <;> rfl
  · intro hws
    have hws' : ∀ c ∈ (lowerS text).data, c ∈ wsChars := lowerS_ws hws
    have h1 : rejectKws.any (fun w => pyIn w (lowerS text)) = false :=
      any_pyIn_ws_false _ _ hws' (by decide)
    have h2 : anyGradKws.any (fun kw => pyIn kw (lowerS text)) = false :=
      any_pyIn_ws_false _ _ hws' (by decide)
    have h3 : gradKws.any (fun kw => pyIn kw (lowerS text)) = false :=
      any_pyIn_ws_false _ _ hws' (by decide)
    have hb1 : pyIn "b.tech" (lowerS text) = false :=
      pyIn_ws_false _ _ hws' (by decide)
    have hb2 : pyIn "btech" (lowerS text) = false :=
      pyIn_ws_false _ _ hws' (by decide)
    have hb3 : pyIn "b.e" (lowerS text) = false :=
      pyIn_ws_false _ _ hws' (by decide)
    have h5 : eceBareKws.any (fun k => pyIn k (lowerS text)) = false :=
      any_pyIn_ws_false _ _ hws' (by decide)
    have h6 : techRoleKws.any (fun k => pyIn k (lowerS text)) = false :=
      any_pyIn_ws_false _ _ hws' (by decide)
    simp [eligible_for_you, h1, h2, h3, hb1, hb2, hb3, h5, h6]

/-- Witness for C9 at the whitespace-only input of two spaces. -/
theorem C9_reasons_singleton_and_ws_unknown_witness :
    isWsOnly "  " = true ∧
    eligible_for_you "  " = (none, ["Could not detect confidently"]) :=
  ⟨by decide, (C9_reasons_singleton_and_ws_unknown "  ").2 (by decide)⟩

/-! ### C5 -/

/-- One classification step preserves the loop invariant. -/
theorem classifyStep_inv {db0 : Store} {st : BuildState} (tm : String) (j : Posting)
    (h : ReportInv db0 st) : ReportInv db0 (classifyStep tm st j) := by
  obtain ⟨hsub, hfresh, hmono⟩ := h
  have hdb0 : is_seen st.db j.link = false → is_seen db0 j.link = false := by
    intro hns
    cases hd : is_seen db0 j.link with
    | false => rfl
    | true => rw [hmono j.link hd] at hns; exact absurd hns (by simp)
  simp only [classifyStep]
  split
  · split
    · exact ⟨fun e he => List.mem_append_left _ (hsub e he), hfresh, hmono⟩
    · rename_i hseen
      rw [Bool.not_eq_true] at hseen
      refine ⟨?_, ?_, ?_⟩
      · intro e he
        rcases List.mem_append.mp he with he | he
        · exact List.mem_append_left _ (hsub e he)
        · exact List.mem_append_right _ he
      · intro e he
        rcases List.mem_append.mp he with he | he
        · exact hfresh e he
        · rw [List.mem_singleton.mp he]
          exact hdb0 hseen
      · intro l hl
        exact is_seen_mark_seen_mono (hmono l hl) _ _ _
  · split
    · exact ⟨hsub, hfresh, hmono⟩
    · exact ⟨hsub, hfresh, fun l hl => is_seen_mark_seen_mono (hmono l hl) _ _ _⟩
  · split
    · exact ⟨hsub, hfresh, hmono⟩
    · exact ⟨hsub, hfresh, fun l hl => is_seen_mark_seen_mono (hmono l hl) _ _ _⟩

/-- After one classification step the processed link is seen. -/
theorem classifyStep_seen_self (tm : String) (st : BuildState) (j : Posting) :
    is_seen (classifyStep tm st j).db j.link = true := by
  simp only [classifyStep]
  split <;> split
  all_goals first
    | assumption
    | exact is_seen_mark_seen_self _ _ _ _

/-- One classification step never unsees a link. -/
theorem classifyStep_seen_mono {st : BuildState} {l : String}
    (h : is_seen st.db l = true) (tm : String) (j : Posting) :
    is_seen (classifyStep tm st j).db l = true := by
  simp only [classifyStep]
  split <;> split
  all_goals first
    | exact h
    | exact is_seen_mark_seen_mono h _ _ _

/-- The classification loop preserves the invariant. -/
theorem foldl_classifyStep_inv (db0 : Store) (tm : String) (jobs : List Posting)
    {st : BuildState} (h : ReportInv db0 st) :
    ReportInv db0 (jobs.foldl (classifyStep tm) st) := by
  induction jobs generalizing st with
  | nil => exact h
  | cons j rest ih => exact ih (classifyStep_inv tm j h)

/-- The classification loop never unsees a link. -/
theorem foldl_classifyStep_seen_mono (tm : String) (jobs : List Posting)
    {st : BuildState} {l : String} (h : is_seen st.db l = true) :
    is_seen ((jobs.foldl (classifyStep tm) st).db) l = true := by
  induction jobs generalizing st with
  | nil => exact h
  | cons j rest ih => exact ih (classifyStep_seen_mono h tm j)

/-- After the classification loop every processed link is seen. -/
theorem foldl_classifyStep_seen_all (tm : String) (jobs : List Posting)
    (st : BuildState) : ∀ j ∈ jobs, is_seen ((jobs.foldl (classifyStep tm) st).db) j.link = true := by
  induction jobs generalizing st with
  | nil => intro j hj; simp at hj
  | cons a rest ih =>
    intro j hj
    rcases List.mem_cons.mp hj with rfl | hj
    · exact foldl_classifyStep_seen_mono tm rest (classifyStep_seen_self tm st j)
    · exact ih (classifyStep tm st a) j hj

/-- The loop state of `build_reports` is the fold of `classifyStep`. -/
theorem build_reports_st (jobs : List Posting) (db : Store) (now tm : String) :
    (build_reports jobs db now tm).st =
      jobs.foldl (classifyStep tm)
        { applicable := [], not_applicable := [], unknown := [],
          new_applicable := [], db := db } := rfl

/-- C5: in every report, new-applicable entries form a subset of the
applicable entries and none of their links was seen before the cycle began;
every link processed in a cycle is seen afterwards, so a posting whose link
was submitted in a first cycle (under any title casing) is excluded from the
new-applicable list of a second cycle run on the resulting store. -/
theorem C5_new_applicable_fresh_subset (jobs : List Posting) (db : Store) (now tm : String) :
    (∀ e ∈ (build_reports jobs db now tm).st.new_applicable,
        e ∈ (build_reports jobs db now tm).st.applicable) ∧
    (∀ e ∈ (build_reports jobs db now tm).st.new_applicable,
        is_seen db e.link = false) ∧
    (∀ j ∈ jobs, is_seen (build_reports jobs db now tm).st.db j.link = true) ∧
    (∀ (jobs2 : List Posting) (now2 tm2 : String),
      ∀ e ∈ (build_reports jobs2 (build_reports jobs db now tm).st.db now2 tm2).st.new_applicable,
        ∀ j ∈ jobs, j.link ≠ e.link) := by
  have hinv0 : ∀ d : Store, ReportInv d
      { applicable := [], not_applicable := [], unknown := [],
        new_applicable := ([] : List Entry), db := d } := by
    intro d
    refine ⟨?_, ?_, ?_⟩ <;> intro x hx <;> first | simp at hx | exact hx
  have h1 := foldl_classifyStep_inv db tm jobs (hinv0 db)
  rw [build_reports_st]
  refine ⟨h1.1, h1.2.1, ?_, ?_⟩
  · exact foldl_classifyStep_seen_all tm jobs _
  · intro jobs2 now2 tm2 e he j hj
    rw [build_reports_st] at he
    have h2 := foldl_classifyStep_inv
      ((jobs.foldl (classifyStep tm)
        { applicable := [], not_applicable := [], unknown := [],
          new_applicable := [], db := db }).db) tm2 jobs2 (hinv0 _)
    have hfresh := h2.2.1 e he
    have hseen := foldl_classifyStep_seen_all tm jobs
      { applicable := [], not_applicable := [], unknown := [],
        new_applicable := [], db := db } j hj
    intro hlink
    rw [hlink] at hseen
    rw [hseen] at hfresh
    exact absurd hfresh (by simp)

/-- Witness for C5: a concrete one-posting cycle whose single applicable
entry is also new-applicable. -/
theorem C5_new_applicable_fresh_subset_witness :
    ({ title := "Any Graduate Apply for Clerk Post", link := "http://a",
       reasons := ["Open to Any Graduate / Any Degree"] } : Entry) ∈
      (build_reports [{ title := "Any Graduate Apply for Clerk Post", link := "http://a" }]
        [] "d" "t").st.new_applicable ∧
    ({ title := "Any Graduate Apply for Clerk Post", link := "http://a",
       reasons := ["Open to Any Graduate / Any Degree"] } : Entry) ∈
      (build_reports [{ title := "Any Graduate Apply for Clerk Post", link := "http://a" }]
        [] "d" "t").st.applicable :=
  ⟨by decide,
   (C5_new_applicable_fresh_subset
      [{ title := "Any Graduate Apply for Clerk Post", link := "http://a" }] [] "d" "t").1
     _ (by decide)⟩

/-! ### C6 -/

/-- At most `MAX_SHOW` entries of a bucket are rendered. -/
theorem take_MAX_SHOW_length_le (es : List Entry) : (es.take MAX_SHOW).length ≤ MAX_SHOW := by
  rw [List.length_take]
  exact min_le_left _ _

/-- A digest section renders the same lines as if the bucket were truncated
to its first `MAX_SHOW` entries. -/
theorem sectionLines_take (blk : Entry → List String) (es : List Entry) :
    sectionLines blk (es.take MAX_SHOW) = sectionLines blk es := by
  have hie : (es.take MAX_SHOW).isEmpty = es.isEmpty := by
    rcases es with _ | ⟨a, tl⟩
    · rfl
    · cases h : (List.take MAX_SHOW (a :: tl)).isEmpty with
      | false => simp
      | true =>
        rw [List.isEmpty_iff, List.take_eq_nil_iff] at h
        rcases h with h | h <;> simp [MAX_SHOW] at h
  simp only [sectionLines, hie, List.take_take, Nat.min_self]

/-- C6: each of the four digest sections renders at most `MAX_SHOW` (= 8)
entries, and a bucket holding more than `MAX_SHOW` postings yields exactly
the same section lines as its first `MAX_SHOW` postings alone. -/
theorem C6_digest_sections_capped (jobs : List Posting) (db : Store) (now tm : String) :
    (((build_reports jobs db now tm).st.applicable.take MAX_SHOW).length ≤ MAX_SHOW ∧
      sectionLines entryBlock ((build_reports jobs db now tm).st.applicable.take MAX_SHOW) =
        sectionLines entryBlock (build_reports jobs db now tm).st.applicable) ∧
    (((build_reports jobs db now tm).st.not_applicable.take MAX_SHOW).length ≤ MAX_SHOW ∧
      sectionLines entryBlock ((build_reports jobs db now tm).st.not_applicable.take MAX_SHOW) =
        sectionLines entryBlock (build_reports jobs db now tm).st.not_applicable) ∧
    (((build_reports jobs db now tm).st.unknown.take MAX_SHOW).length ≤ MAX_SHOW ∧
      sectionLines entryBlock ((build_reports jobs db now tm).st.unknown.take MAX_SHOW) =
        sectionLines entryBlock (build_reports jobs db now tm).st.unknown) ∧
    (((build_reports jobs db now tm).st.new_applicable.take MAX_SHOW).length ≤ MAX_SHOW ∧
      sectionLines entryBlockNoNote
          ((build_reports jobs db now tm).st.new_applicable.take MAX_SHOW) =
        sectionLines entryBlockNoNote (build_reports jobs db now tm).st.new_applicable) :=
  ⟨⟨take_MAX_SHOW_length_le _, sectionLines_take _ _⟩,
   ⟨take_MAX_SHOW_length_le _, sectionLines_take _ _⟩,
   ⟨take_MAX_SHOW_length_le _, sectionLines_take _ _⟩,
   ⟨take_MAX_SHOW_length_le _, sectionLines_take _ _⟩⟩

/-! ### C7 -/

/-- An infix of the right summand is an infix of an append. -/
theorem infix_app_left {α : Type} {x : List α} (y : List α) {z : List α}
    (h : x <:+: z) : x <:+: y ++ z :=
  h.trans (List.suffix_append y z).isInfix

/-- The rendered block of a bucket member is an infix of the flattened blocks. -/
theorem blk_infix_of_mem (blk : Entry → List String) {e : Entry} {l : List Entry}
    (h : e ∈ l) : blk e <:+: (l.map blk).flatten := by
  induction l with
  | nil => simp at h
  | cons a tl ih =>
    rw [List.map_cons, List.flatten_cons]
    rcases List.mem_cons.mp h with rfl | h
    · exact (List.prefix_append _ _).isInfix
    · exact (ih h).trans (List.suffix_append _ _).isInfix

/-- The rendered block of a displayed bucket entry is an infix of its
section lines. -/
theorem blk_infix_sectionLines (blk : Entry → List String) {e : Entry} {es : List Entry}
    (h : e ∈ es.take MAX_SHOW) : blk e <:+: sectionLines blk es := by
  have hne : es.isEmpty = false := by
    rcases es with _ | _
    · simp at h
    · simp
  simp only [sectionLines, hne, Bool.false_eq_true, if_false]
  exact blk_infix_of_mem blk h

/-- Each of the four section line lists is an infix of the full digest. -/
theorem sections_infix_reportLines (st : BuildState) (now : String) :
    sectionLines entryBlock st.applicable <:+: reportLines st now ∧
    sectionLines entryBlock st.not_applicable <:+: reportLines st now ∧
    sectionLines entryBlock st.unknown <:+: reportLines st now ∧
    sectionLines entryBlockNoNote st.new_applicable <:+: reportLines st now := by
  refine ⟨?_, ?_, ?_, ?_⟩ <;> simp only [reportLines, List.append_assoc]
  · exact infix_app_left _ (infix_app_left _ ((List.prefix_append _ _).isInfix))
  · exact infix_app_left _ (infix_app_left _ (infix_app_left _ (infix_app_left _
      ((List.prefix_append _ _).isInfix))))
  · exact infix_app_left _ (infix_app_left _ (infix_app_left _ (infix_app_left _
      (infix_app_left _ (infix_app_left _ ((List.prefix_append _ _).isInfix))))))
  · exact infix_app_left _ (infix_app_left _ (infix_app_left _ (infix_app_left _
      (infix_app_left _ (infix_app_left _ (infix_app_left _ (infix_app_left _
        ((List.prefix_append _ _).isInfix))))))))

/-- C7 as frozen is false: the new-applicable section renders title and link
only, with no reasons line, as the concrete digest of a single
new-applicable posting shows. -/
theorem C7_counterexample :
    (build_reports [{ title := "Any Graduate Apply for Clerk Post", link := "http://a" }]
        [] "d" "t").st.new_applicable =
      [{ title := "Any Graduate Apply for Clerk Post", link := "http://a",
         reasons := ["Open to Any Graduate / Any Degree"] }] ∧
    sectionLines entryBlockNoNote
        (build_reports [{ title := "Any Graduate Apply for Clerk Post", link := "http://a" }]
          [] "d" "t").st.new_applicable =
      ["- Any Graduate Apply for Clerk Post", "  http://a"] ∧
    (["- Any Graduate Apply for Clerk Post", "  http://a"] : List String).all
      (fun ln => !(pyIn "Open to Any Graduate / Any Degree" ln) && !(pyIn "Note:" ln)) =
      true := by decide

/-- C7 amended: every entry rendered in the applicable, not-applicable and
unknown sections shows its title, its link and the reasons joined by a
semicolon separator (its `entryBlock`); every entry rendered in the
new-applicable section shows title and link only (its `entryBlockNoNote`). -/
theorem C7_entry_rendering (jobs : List Posting) (db : Store) (now tm : String) (e : Entry) :
    (e ∈ (build_reports jobs db now tm).st.applicable.take MAX_SHOW →
      entryBlock e <:+: (build_reports jobs db now tm).lines) ∧
    (e ∈ (build_reports jobs db now tm).st.not_applicable.take MAX_SHOW →
      entryBlock e <:+: (build_reports jobs db now tm).lines) ∧
    (e ∈ (build_reports jobs db now tm).st.unknown.take MAX_SHOW →
      entryBlock e <:+: (build_reports jobs db now tm).lines) ∧
    (e ∈ (build_reports jobs db now tm).st.new_applicable.take MAX_SHOW →
      entryBlockNoNote e <:+: (build_reports jobs db now tm).lines) := by
  have hl : (build_reports jobs db now tm).lines =
      reportLines (build_reports jobs db now tm).st now := rfl
  rw [hl]
  have hsec := sections_infix_reportLines (build_reports jobs db now tm).st now
  exact ⟨fun h => (blk_infix_sectionLines entryBlock h).trans hsec.1,
         fun h => (blk_infix_sectionLines entryBlock h).trans hsec.2.1,
         fun h => (blk_infix_sectionLines entryBlock h).trans hsec.2.2.1,
         fun h => (blk_infix_sectionLines entryBlockNoNote h).trans hsec.2.2.2⟩

/-- Witness for C7 at a concrete one-posting report. -/
theorem C7_entry_rendering_witness :
    ({ title := "Any Graduate Apply for Clerk Post", link := "http://a",
       reasons := ["Open to Any Graduate / Any Degree"] } : Entry) ∈
      (build_reports [{ title := "Any Graduate Apply for Clerk Post", link := "http://a" }]
        [] "d" "t").st.applicable.take MAX_SHOW ∧
    entryBlock { title := "Any Graduate Apply for Clerk Post", link := "http://a",
                 reasons := ["Open to Any Graduate / Any Degree"] } <:+:
      (build_reports [{ title := "Any Graduate Apply for Clerk Post", link := "http://a" }]
        [] "d" "t").lines :=
  ⟨by decide,
   (C7_entry_rendering [{ title := "Any Graduate Apply for Clerk Post", link := "http://a" }]
      [] "d" "t" _).1 (by decide)⟩

/-! ### C8 -/

/-- Unfolding of `splitlinesKeep` on a character that is not a carriage
return. -/
theorem splitlinesKeep_cons_not_cr {c : Char} (hc : ¬c = '\r') (acc cs : List Char) :
    splitlinesKeep acc (c :: cs) =
      if isLineBreak c then (acc.reverse ++ [c]) :: splitlinesKeep [] cs
      else splitlinesKeep (c :: acc) cs := by
  rw [splitlinesKeep.eq_def]
  simp [hc]

/-- Splitting into kept-end lines loses no characters. -/
theorem splitlinesKeep_flatten (acc l : List Char) :
    (splitlinesKeep acc l).flatten = acc.reverse ++ l := by
  induction acc, l using splitlinesKeep.induct with
  | case1 acc h => rw [List.isEmpty_iff] at h; subst h; simp [splitlinesKeep]
  | case2 acc h => simp [splitlinesKeep, h]
  | case3 acc => simp [splitlinesKeep]
  | case4 acc rest ih => simp [splitlinesKeep, ih]
  | case5 acc d rest hd ih => simp [splitlinesKeep, hd, ih]
  | case6 acc c cs hc hbr ih =>
    rw [splitlinesKeep_cons_not_cr hc, hbr]
    simp [ih]
  | case7 acc c cs hc hbr ih =>
    rw [Bool.not_eq_true] at hbr
    rw [splitlinesKeep_cons_not_cr hc, hbr]
    simpa using ih

/-- Splitting a nonempty text (or with a pending line) yields lines. -/
theorem splitlinesKeep_eq_nil (acc l : List Char) :
    splitlinesKeep acc l = [] → acc = [] ∧ l = [] := by
  induction acc, l using splitlinesKeep.induct with
  | case1 acc h =>
    intro _
    rw [List.isEmpty_iff] at h
    exact ⟨h, rfl⟩
  | case2 acc h => simp [splitlinesKeep, h]
  | case3 acc => simp [splitlinesKeep]
  | case4 acc rest ih => simp [splitlinesKeep]
  | case5 acc d rest hd ih => simp [splitlinesKeep, hd]
  | case6 acc c cs hc hbr ih =>
    rw [splitlinesKeep_cons_not_cr hc, hbr]
    simp
  | case7 acc c cs hc hbr ih =>
    rw [Bool.not_eq_true] at hbr
    rw [splitlinesKeep_cons_not_cr hc, hbr]
    simp only [Bool.false_eq_true, if_false]
    intro h
    exact absurd ((ih h).1) (by simp)

/-- The chunk loop loses no characters: its parts flatten to the pending
part followed by the remaining lines. -/
theorem chunkLines_flatten (lines : List (List Char)) :
    ∀ cur curLen, (chunkLines cur curLen lines).flatten = cur.flatten ++ lines.flatten := by
  induction lines with
  | nil =>
    intro cur curLen
    simp only [chunkLines]
    split
    · rename_i h
      rw [List.isEmpty_iff] at h
      subst h
      simp
    · simp
  | cons line rest ih =>
    intro cur curLen
    simp only [chunkLines]
    split
    · simp [ih]
    · rw [ih]
      simp

/-- Every part the chunk loop emits is the concatenation of a consecutive
group of the input lines (prefixed by the pending lines), in order. -/
theorem chunkLines_groups (lines : List (List Char)) :
    ∀ cur curLen, ∃ gs : List (List (List Char)),
      chunkLines cur curLen lines = gs.map List.flatten ∧ gs.flatten = cur ++ lines := by
  induction lines with
  | nil =>
    intro cur curLen
    simp only [chunkLines]
    split
    · rename_i h
      rw [List.isEmpty_iff] at h
      subst h
      exact ⟨[], by simp, by simp⟩
    · exact ⟨[cur], by simp, by simp⟩
  | cons line rest ih =>
    intro cur curLen
    simp only [chunkLines]
    split
    · obtain ⟨gs, h1, h2⟩ := ih [line] line.length
      exact ⟨cur :: gs, by simp [h1], by simp [h2]⟩
    · obtain ⟨gs, h1, h2⟩ := ih (cur ++ [line]) (curLen + line.length)
      exact ⟨gs, h1, by simp [h2]⟩

/-- The chunk loop emits at least one part when it has pending lines or
input lines. -/
theorem chunkLines_ne_nil (lines : List (List Char)) :
    ∀ cur curLen, cur ≠ [] ∨ lines ≠ [] → chunkLines cur curLen lines ≠ [] := by
  induction lines with
  | nil =>
    intro cur curLen h
    rcases h with h | h
    · simp only [chunkLines]
      split
      · rename_i hE
        rw [List.isEmpty_iff] at hE
        exact absurd hE h
      · simp
    · exact absurd rfl h
  | cons line rest ih =>
    intro cur curLen _
    simp only [chunkLines]
    split
    · simp
    · exact ih (cur ++ [line]) (curLen + line.length) (Or.inl (by simp))

/-- The parts of a nonempty report are nonempty. -/
theorem webhookParts_ne_nil {report : List Char} (h : report ≠ []) :
    webhookParts report ≠ [] := by
  apply chunkLines_ne_nil
  right
  intro hs
  exact absurd ((splitlinesKeep_eq_nil [] report hs).2) h

/-- C8: on the webhook query path with the Twilio client configured,
whenever the report exceeds `MAX_CHUNK` (1500) characters, the reply is the
first chunk and the remaining chunks are pushed, each to the original
sender, in order; the chunks concatenate back to exactly the full report;
and every chunk is the concatenation of a consecutive run of the report's
kept-end lines, so each split point is a line boundary. -/
theorem C8_webhook_chunking (report sender : List Char) (h : MAX_CHUNK < report.length) :
    (bot_webhook_route true report sender).reply ::
        (bot_webhook_route true report sender).pushed.map Prod.fst = webhookParts report ∧
    (∀ pr ∈ (bot_webhook_route true report sender).pushed, pr.2 = sender) ∧
    (webhookParts report).flatten = report ∧
    (∃ gs : List (List (List Char)), webhookParts report = gs.map List.flatten ∧
        gs.flatten = splitlinesKeep [] report) := by
  have hne : report ≠ [] := by
    intro hr
    rw [hr] at h
    simp [MAX_CHUNK] at h
  have hpne : webhookParts report ≠ [] := webhookParts_ne_nil hne
  have hroute : bot_webhook_route true report sender =
      { reply := (webhookParts report).headD [],
        pushed := (webhookParts report).tail.map (fun p => (p, sender)) } := by
    simp only [bot_webhook_route]
    rw [if_neg (by omega)]
    simp
  refine ⟨?_, ?_, ?_, ?_⟩
  · rw [hroute]
    rcases hp : webhookParts report with _ | ⟨p, ps⟩
    · exact absurd hp hpne
    · simp [hp, List.map_map, Function.comp_def]
  · rw [hroute]
    intro pr hpr
    rcases List.mem_map.mp hpr with ⟨p, _, rfl⟩
    rfl
  · rw [webhookParts, chunkLines_flatten]
    simp [splitlinesKeep_flatten]
  · obtain ⟨gs, h1, h2⟩ := chunkLines_groups (splitlinesKeep [] report) [] 0
    exact ⟨gs, h1, by simpa using h2⟩

/-- Witness for C8 at a concrete 1501-character single-line report. -/
theorem C8_webhook_chunking_witness :
    MAX_CHUNK < (List.replicate 1501 'a').length ∧
    ((bot_webhook_route true (List.replicate 1501 'a') "s".data).reply ::
        (bot_webhook_route true (List.replicate 1501 'a') "s".data).pushed.map Prod.fst =
      webhookParts (List.replicate 1501 'a') ∧
    (∀ pr ∈ (bot_webhook_route true (List.replicate 1501 'a') "s".data).pushed,
        pr.2 = "s".data) ∧
    (webhookParts (List.replicate 1501 'a')).flatten = List.replicate 1501 'a' ∧
    (∃ gs : List (List (List Char)),
        webhookParts (List.replicate 1501 'a') = gs.map List.flatten ∧
        gs.flatten = splitlinesKeep [] (List.replicate 1501 'a'))) :=
  ⟨by rw [List.length_replicate]; decide,
   C8_webhook_chunking (List.replicate 1501 'a') "s".data
     (by rw [List.length_replicate]; decide)⟩
